import Mathlib

/-!
Shallow embedding of the settlement core of the quub optimistic-rollup
Layer-2: the `OptimisticRollup` bond/challenge ledger
(contracts/OptimisticRollup.sol) and the multi-chain settlement router with
its routing strategies and the Ethereum adapter
(sequencer/settlement/BSCAdapter.ts, EthereumAdapter.ts, IChainAdapter.ts).

Addresses, roots and wei amounts are modelled as `Nat`; JavaScript numbers
are modelled as exact rationals; `bigint` as `Nat`; reverting calls and
thrown exceptions as `Except String`; outgoing ETH transfers as an explicit
list of (recipient, amount) pairs produced by a call.  The two Solidity
mappings keyed by consecutive indices (`stateCommitments`, `fraudProofs`)
are lists indexed by position, since both are written only at the current
index counter, which is then incremented.
-/

structure StateCommitment where
  stateRoot : Nat
  blockNumber : Nat
  timestamp : Nat
  proposer : Nat
  finalized : Bool
deriving DecidableEq, Repr

structure FraudProof where
  commitmentIndex : Nat
  preStateRoot : Nat
  postStateRoot : Nat
  transitionProof : List Nat
  challenger : Nat
  challengeTime : Nat
  resolved : Bool
deriving DecidableEq, Repr

structure RollupState where
  commitments : List StateCommitment
  proofs : List FraudProof
  challengePeriod : Nat
  bondAmount : Nat
  sequencer : Nat
  owner : Nat
  bonds : Nat → Nat

/-- Zero-initialised commitment, the value a Solidity mapping returns at an
unwritten key. -/
def defaultCommitment : StateCommitment :=
  { stateRoot := 0, blockNumber := 0, timestamp := 0, proposer := 0, finalized := false }

/-- A call outcome: the new ledger state together with the ETH transfers the
call performed, or the revert message. -/
abbrev LedgerResult := Except String (RollupState × List (Nat × Nat))

def commitState (s : RollupState) (sender now blockNum root : Nat) : LedgerResult :=
  if sender ≠ s.sequencer then .error "Only sequencer can commit states"
  else if s.bonds sender < s.bondAmount then .error "Insufficient bond"
  else .ok ({ s with commitments := s.commitments ++
      [{ stateRoot := root, blockNumber := blockNum, timestamp := now,
         proposer := sender, finalized := false }] }, [])

def challengeState (s : RollupState) (sender value now idx pre post : Nat)
    (prf : List Nat) : LedgerResult :=
  if value < s.bondAmount then .error "Insufficient challenge bond"
  else match s.commitments[idx]? with
  | none => .error "Invalid commitment index"
  | some c =>
    if c.finalized then .error "State already finalized"
    else if c.timestamp + s.challengePeriod < now then .error "Challenge period expired"
    else .ok ({ s with proofs := s.proofs ++
        [{ commitmentIndex := idx, preStateRoot := pre, postStateRoot := post,
           transitionProof := prf, challenger := sender, challengeTime := now,
           resolved := false }] }, [])

def resolveChallenge (s : RollupState) (sender idx : Nat) (fraudulent : Bool) :
    LedgerResult :=
  if sender ≠ s.owner then .error "Caller is not the owner"
  else match s.proofs[idx]? with
  | none => .error "Invalid proof index"
  | some p =>
    if p.resolved then .error "Challenge already resolved"
    else
      let c := (s.commitments[p.commitmentIndex]?).getD defaultCommitment
      let proofs2 := s.proofs.set idx { p with resolved := true }
      if fraudulent then
        let slashAmount := s.bonds c.proposer
        let bonds2 : Nat → Nat := fun a => if a = c.proposer then 0 else s.bonds a
        .ok ({ s with proofs := proofs2, bonds := bonds2 },
          (p.challenger, s.bondAmount) ::
            (if s.bondAmount < slashAmount then
              [(p.challenger, slashAmount - s.bondAmount)] else []))
      else
        .ok ({ s with proofs := proofs2 }, [(c.proposer, s.bondAmount)])

def finalizeStates (s : RollupState) (now : Nat) : LedgerResult :=
  .ok ({ s with commitments := s.commitments.map (fun c =>
      if !c.finalized && c.timestamp + s.challengePeriod < now then
        { c with finalized := true } else c) }, [])

def finalizeState (s : RollupState) (now idx : Nat) : LedgerResult :=
  match s.commitments[idx]? with
  | none => .error "Invalid commitment index"
  | some c =>
    if c.finalized then .error "State already finalized"
    else if ¬ c.timestamp + s.challengePeriod < now then
      .error "Challenge period not expired"
    else .ok ({ s with commitments :=
        s.commitments.set idx { c with finalized := true } }, [])

def depositBond (s : RollupState) (sender value : Nat) : LedgerResult :=
  .ok ({ s with bonds := fun a => if a = sender then s.bonds a + value else s.bonds a },
    [])

def withdrawBond (s : RollupState) (sender amount : Nat) : LedgerResult :=
  if s.bonds sender < amount then .error "Insufficient bond balance"
  else .ok ({ s with bonds :=
      fun a => if a = sender then s.bonds a - amount else s.bonds a },
    [(sender, amount)])

def withdrawBondAll (s : RollupState) (sender : Nat) : LedgerResult :=
  let amount := s.bonds sender
  if amount = 0 then .error "No bond to withdraw"
  else .ok ({ s with bonds := fun a => if a = sender then 0 else s.bonds a },
    [(sender, amount)])

def setSequencer (s : RollupState) (sender newSequencer : Nat) : LedgerResult :=
  if sender ≠ s.owner then .error "Caller is not the owner"
  else .ok ({ s with sequencer := newSequencer }, [])

def setChallengePeriod (s : RollupState) (sender newPeriod : Nat) : LedgerResult :=
  if sender ≠ s.owner then .error "Caller is not the owner"
  else .ok ({ s with challengePeriod := newPeriod }, [])

/-- The external mutating surface of the ledger, one constructor per
contract function. -/
inductive LedgerOp where
  | commitState (sender now blockNum root : Nat)
  | challengeState (sender value now idx pre post : Nat) (prf : List Nat)
  | resolveChallenge (sender idx : Nat) (fraudulent : Bool)
  | finalizeStates (now : Nat)
  | finalizeState (now idx : Nat)
  | depositBond (sender value : Nat)
  | withdrawBond (sender amount : Nat)
  | withdrawBondAll (sender : Nat)
  | setSequencer (sender newSequencer : Nat)
  | setChallengePeriod (sender newPeriod : Nat)
deriving DecidableEq, Repr

def step (s : RollupState) : LedgerOp → LedgerResult
  | .commitState sender now blockNum root => commitState s sender now blockNum root
  | .challengeState sender value now idx pre post prf =>
      challengeState s sender value now idx pre post prf
  | .resolveChallenge sender idx fraudulent => resolveChallenge s sender idx fraudulent
  | .finalizeStates now => finalizeStates s now
  | .finalizeState now idx => finalizeState s now idx
  | .depositBond sender value => depositBond s sender value
  | .withdrawBond sender amount => withdrawBond s sender amount
  | .withdrawBondAll sender => withdrawBondAll s sender
  | .setSequencer sender newSequencer => setSequencer s sender newSequencer
  | .setChallengePeriod sender newPeriod => setChallengePeriod s sender newPeriod

/-- Run one call with revert semantics: a reverted call leaves the ledger
unchanged. -/
def execOp (s : RollupState) (op : LedgerOp) : RollupState :=
  match step s op with
  | .ok (t, _) => t
  | .error _ => s

def execOps (s : RollupState) (ops : List LedgerOp) : RollupState :=
  ops.foldl execOp s

/-! ## Settlement router and strategies (BSCAdapter.ts / IChainAdapter.ts)

An adapter is modelled by its registration data plus the outcome of the
asynchronous queries the router makes on it: `estimateQ` for
`estimateGasCost`, `metricsQ` for `getMetrics`, `submitQ` for
`submitBatch`.  `none` means the corresponding promise rejects (throws);
`some` is the resolved value.  The adapter registry is the registration
ordered list of adapters (a JS `Map` iterates in insertion order). -/

structure ChainMetricsM where
  gasPrice : Nat
  blockTime : ℚ
  finalizationTime : ℚ
  chainLoad : ℚ
deriving DecidableEq, Repr

structure SettlementResultM where
  success : Bool
  txHash : String
  blockNumber : Nat
  gasUsed : Nat
  cost : Nat
  finalizationTime : ℚ
deriving DecidableEq, Repr

structure AdapterM where
  chainId : Nat
  name : String
  connected : Bool
  estimateQ : Option Nat
  metricsQ : Option ChainMetricsM
  submitQ : Option SettlementResultM
deriving DecidableEq, Repr

structure SettlementDecisionM where
  chainId : Nat
  chainName : String
  estimatedCost : Nat
  estimatedTime : ℚ
  score : ℚ
  reason : String
deriving DecidableEq, Repr

/-- `maxCost` of the two identical cost normalisers: 1 ETH in wei. -/
def maxCostWei : Nat := 10 ^ 18

/-- `SettlementRouter.normalizeCostScore` (identical to
`BalancedStrategy.normalizeCost`): `100 - Number(cost * 100n / maxCost)`
clamped to [0, 100]; the bigint division truncates. -/
def normalizeCostScore (cost : Nat) : ℚ :=
  let normalized : ℚ := 100 - ((cost * 100 / maxCostWei : Nat) : ℚ)
  max 0 (min 100 normalized)

/-- `SettlementRouter.normalizeTimeScore` (identical to
`BalancedStrategy.normalizeTime`): `100 - (time / 300 * 100)` clamped. -/
def normalizeTimeScore (time : ℚ) : ℚ :=
  max 0 (min 100 (100 - time / 300 * 100))

/-- `SettlementRouter.generateReason`. -/
def generateReason (costScore timeScore loadScore : ℚ) : String :=
  let factors : List String :=
    (if 70 < costScore then ["low cost"] else []) ++
    (if 70 < timeScore then ["fast finality"] else []) ++
    (if 70 < loadScore then ["low congestion"] else [])
  if factors.isEmpty then "balanced" else String.intercalate ", " factors

/-- The decision `analyzeBatch` pushes for one successfully queried
connected adapter: weighted score cost 50%, time 30%, load 20%. -/
def mkDecision (a : AdapterM) (cost : Nat) (m : ChainMetricsM) : SettlementDecisionM :=
  let costScore := normalizeCostScore cost
  let timeScore := normalizeTimeScore m.finalizationTime
  let loadScore := 100 - m.chainLoad
  { chainId := a.chainId, chainName := a.name, estimatedCost := cost,
    estimatedTime := m.finalizationTime,
    score := costScore * (1 / 2) + timeScore * (3 / 10) + loadScore * (1 / 5),
    reason := generateReason costScore timeScore loadScore }

/-- The unsorted decision list of `analyzeBatch`: one decision per connected
adapter both of whose queries resolve; a connected adapter whose cost or
metrics query rejects is skipped by the catch block. -/
def analyzeDecisions (adapters : List AdapterM) : List SettlementDecisionM :=
  adapters.filterMap (fun a =>
    if a.connected then
      match a.estimateQ, a.metricsQ with
      | some cost, some m => some (mkDecision a cost m)
      | _, _ => none
    else none)

/-- Comparator order of `decisions.sort((a, b) => b.score - a.score)`:
descending score. -/
def scoreOrder (d e : SettlementDecisionM) : Prop := e.score ≤ d.score

instance : DecidableRel scoreOrder := fun d e => inferInstanceAs (Decidable (e.score ≤ d.score))

instance : IsTotal SettlementDecisionM scoreOrder := ⟨fun d e => le_total e.score d.score⟩

instance : IsTrans SettlementDecisionM scoreOrder :=
  ⟨fun _ _ _ h h2 => le_trans h2 h⟩

/-- `SettlementRouter.analyzeBatch`: build the decisions and sort them by
descending score with a stable sort (ECMAScript `Array.prototype.sort` is
stable). -/
def analyzeBatch (adapters : List AdapterM) : List SettlementDecisionM :=
  (analyzeDecisions adapters).insertionSort scoreOrder

/-- The attempt loop of `SettlementRouter.submitToChain`: `maxRetries + 1`
attempts of `adapter.submitBatch`.  The modelled submission outcome of an
adapter is fixed per call, so retries see the same outcome. -/
def trySubmit (a : AdapterM) : Nat → Except String SettlementResultM
  | 0 => match a.submitQ with
    | some r => .ok r
    | none => .error "Failed to submit batch"
  | n + 1 => match a.submitQ with
    | some r => .ok r
    | none => trySubmit a n

/-- `SettlementRouter.submitToChain`: registry lookup, connectivity check,
then the bounded retry loop. -/
def submitToChain (adapters : List AdapterM) (chainId maxRetries : Nat) :
    Except String SettlementResultM :=
  match adapters.find? (fun a => a.chainId = chainId) with
  | none => .error "No adapter found for chain"
  | some a =>
    if !a.connected then .error "not connected"
    else trySubmit a maxRetries

/-- The failover loop of `submitBatchWithFailover`: try each ranked chain
with zero retries, return the first success. -/
def failoverLoop (adapters : List AdapterM) :
    List SettlementDecisionM → Except String SettlementResultM
  | [] => .error "All chains failed to settle batch"
  | d :: rest =>
    match submitToChain adapters d.chainId 0 with
    | .ok r => .ok r
    | .error _ => failoverLoop adapters rest

/-- `SettlementRouter.submitBatchWithFailover`. -/
def submitBatchWithFailover (adapters : List AdapterM) :
    Except String SettlementResultM :=
  let decisions := analyzeBatch adapters
  if decisions.isEmpty then .error "No available chains for settlement"
  else failoverLoop adapters decisions

/-- `BigInt(Number.MAX_SAFE_INTEGER)`, the initial `lowestCost` of
`CostOptimizedStrategy.selectChain`. -/
def maxSafeInteger : Nat := 9007199254740991

/-- One loop iteration of `CostOptimizedStrategy.selectChain`; the
accumulator is `(cheapestChain, lowestCost)`. -/
def costOptStep (acc : Option Nat × Nat) (a : AdapterM) : Option Nat × Nat :=
  if a.connected then
    match a.estimateQ with
    | some cost => if cost < acc.2 then (some a.chainId, cost) else acc
    | none => acc
  else acc

/-- `CostOptimizedStrategy.selectChain`. -/
def costOptimizedSelect (adapters : List AdapterM) : Except String Nat :=
  let result := adapters.foldl costOptStep (none, maxSafeInteger)
  match result.1 with
  | none => .error "No available chains for settlement"
  | some chainId => .ok chainId

/-- The weighted score of `BalancedStrategy.selectChain`: cost 40%,
time 40%, load 20%. -/
def balancedScore (cost : Nat) (m : ChainMetricsM) : ℚ :=
  normalizeCostScore cost * (2 / 5) + normalizeTimeScore m.finalizationTime * (2 / 5) +
    (100 - m.chainLoad) * (1 / 5)

/-- One loop iteration of `BalancedStrategy.selectChain`; the accumulator is
`(bestChain, bestScore)`. -/
def balancedStep (acc : Option Nat × ℚ) (a : AdapterM) : Option Nat × ℚ :=
  if a.connected then
    match a.estimateQ, a.metricsQ with
    | some cost, some m =>
      let score := balancedScore cost m
      if acc.2 < score then (some a.chainId, score) else acc
    | _, _ => acc
  else acc

/-- `BalancedStrategy.selectChain`. -/
def balancedSelect (adapters : List AdapterM) : Except String Nat :=
  let result := adapters.foldl balancedStep (none, -1)
  match result.1 with
  | none => .error "No available chains for settlement"
  | some chainId => .ok chainId

/-! ## EthereumAdapter.estimateGasCost (EthereumAdapter.ts) -/

/-- `EthereumAdapter.estimateGasCost`: `contractSet` is whether
`settlementContract` is non-null (set by `connect`, cleared by
`disconnect`); `query` is the outcome of the gas estimation and gas price
calls inside the try block, `none` when one of them rejects, in which case
the catch returns the pessimistic constant 1 ETH. -/
def ethEstimateGasCost (contractSet : Bool) (query : Option (Nat × Nat)) :
    Except String Nat :=
  if !contractSet then .error "adapter not connected"
  else match query with
  | some gp => .ok (gp.1 * gp.2)
  | none => .ok (10 ^ 18)

/-- Refinement reference for claim C8, following the words of the spec
formula with real (exact rational) division:
`costScore = clamp(100 - 100 * cost / maxCost, 0, 100)`. -/
def specCostScore (cost : ℚ) : ℚ :=
  max 0 (min 100 (100 - 100 * cost / ((10 : ℚ) ^ 18)))

/-! ## Concrete test fixtures -/

/-- A small ledger: one commitment by sequencer 2 (committed at time 10,
period 100), one unresolved challenge by challenger 5, owner 9,
`bondAmount` 100, and the sequencer currently holds a bond of 7. -/
def sampleLedger : RollupState :=
  { commitments := [{ stateRoot := 11, blockNumber := 1, timestamp := 10,
                      proposer := 2, finalized := false }],
    proofs := [{ commitmentIndex := 0, preStateRoot := 1, postStateRoot := 2,
                 transitionProof := [], challenger := 5, challengeTime := 12,
                 resolved := false }],
    challengePeriod := 100, bondAmount := 100, sequencer := 2, owner := 9,
    bonds := fun a => if a = 2 then 7 else 0 }

/-- Baseline metrics shared by the router fixtures. -/
def sampleMetrics : ChainMetricsM :=
  { gasPrice := 1, blockTime := 3, finalizationTime := 12, chainLoad := 50 }

/-- Connected adapter, registered first, with a wei-scale cost of 100. -/
def adapterCost100 : AdapterM :=
  { chainId := 1, name := "eth", connected := true, estimateQ := some 100,
    metricsQ := some sampleMetrics, submitQ := none }

/-- Connected adapter, registered second, with a wei-scale cost of 5. -/
def adapterCost5 : AdapterM :=
  { chainId := 2, name := "bsc", connected := true, estimateQ := some 5,
    metricsQ := some sampleMetrics,
    submitQ := some { success := true, txHash := "t2", blockNumber := 7,
                      gasUsed := 3, cost := 5, finalizationTime := 9 } }

/-- Connected adapter, registered third, with a wei-scale cost of 2. -/
def adapterCost2 : AdapterM :=
  { chainId := 3, name := "pol", connected := true, estimateQ := some 2,
    metricsQ := some sampleMetrics,
    submitQ := some { success := true, txHash := "t3", blockNumber := 8,
                      gasUsed := 4, cost := 2, finalizationTime := 10 } }

/-- Connected adapter whose metrics query rejects. -/
def adapterMetricsDown : AdapterM :=
  { chainId := 4, name := "arb", connected := true, estimateQ := some 7,
    metricsQ := none, submitQ := none }

/-- Connected adapter whose (successful) cost estimate equals the
`Number.MAX_SAFE_INTEGER` sentinel. -/
def adapterAtSentinel : AdapterM :=
  { chainId := 5, name := "opt", connected := true,
    estimateQ := some maxSafeInteger, metricsQ := some sampleMetrics,
    submitQ := none }

/-- Metrics giving integer sub-scores: time score 100, load score 100. -/
def fastMetrics : ChainMetricsM :=
  { gasPrice := 1, blockTime := 0, finalizationTime := 0, chainLoad := 0 }

/-- Submission result of the second-ranked failover fixture chain. -/
def secondResult : SettlementResultM :=
  { success := true, txHash := "second-tx", blockNumber := 21, gasUsed := 9,
    cost := 3, finalizationTime := 4 }

/-- Submission result of the third-ranked failover fixture chain. -/
def thirdResult : SettlementResultM :=
  { success := true, txHash := "third-tx", blockNumber := 22, gasUsed := 8,
    cost := 5, finalizationTime := 6 }

/-- Top-ranked fixture adapter (cost 0, score 100) whose submission always
throws. -/
def failTopAdapter : AdapterM :=
  { chainId := 11, name := "top", connected := true, estimateQ := some 0,
    metricsQ := some fastMetrics, submitQ := none }

/-- Second-ranked fixture adapter (cost 3e17, score 85) whose submission
succeeds. -/
def okSecondAdapter : AdapterM :=
  { chainId := 12, name := "second", connected := true,
    estimateQ := some (3 * 10 ^ 17), metricsQ := some fastMetrics,
    submitQ := some secondResult }

/-- Third-ranked fixture adapter (cost 6e17, score 70) whose submission
succeeds. -/
def okThirdAdapter : AdapterM :=
  { chainId := 13, name := "third", connected := true,
    estimateQ := some (6 * 10 ^ 17), metricsQ := some fastMetrics,
    submitQ := some thirdResult }

/-! ## Helper lemmas -/

/-- A reverted call leaves the ledger unchanged. -/
theorem execOp_of_error (s : RollupState) (op : LedgerOp) (msg : String)
    (h : step s op = .error msg) : execOp s op = s := by
  unfold execOp
  rw [h]

/-- Across any single ledger call, the challenge list is unchanged, or a
fresh unresolved challenge is appended, or one stored challenge is marked
resolved. -/
theorem execOp_proofs_shape (s : RollupState) (op : LedgerOp) :
    (execOp s op).proofs = s.proofs ∨
    (∃ x, x.resolved = false ∧ (execOp s op).proofs = s.proofs ++ [x]) ∨
    (∃ j pj, s.proofs[j]? = some pj ∧
      (execOp s op).proofs = s.proofs.set j { pj with resolved := true }) := by
  unfold execOp
  split
  case h_2 => left; rfl
  case h_1 t tr heq =>
    cases op with
    | commitState sender now blockNum root =>
      left
      simp only [step, commitState] at heq
      repeat' split at heq
      all_goals first
        | exact Except.noConfusion heq
        | (simp only [Except.ok.injEq, Prod.mk.injEq] at heq
           obtain ⟨rfl, -⟩ := heq
           rfl)
    | challengeState sender value now idx pre post prf =>
      simp only [step, challengeState] at heq
      repeat' split at heq
      all_goals first
        | exact Except.noConfusion heq
        | (simp only [Except.ok.injEq, Prod.mk.injEq] at heq
           obtain ⟨rfl, -⟩ := heq
           right; left; exact ⟨_, rfl, rfl⟩)
    | resolveChallenge sender idx fraudulent =>
      simp only [step, resolveChallenge] at heq
      repeat' split at heq
      all_goals first
        | exact Except.noConfusion heq
        | (simp only [Except.ok.injEq, Prod.mk.injEq] at heq
           obtain ⟨rfl, -⟩ := heq
           right; right
           exact ⟨idx, _, by assumption, rfl⟩)
    | finalizeStates now =>
      left
      simp only [step, finalizeStates, Except.ok.injEq, Prod.mk.injEq] at heq
      obtain ⟨rfl, -⟩ := heq
      rfl
    | finalizeState now idx =>
      left
      simp only [step, finalizeState] at heq
      repeat' split at heq
      all_goals first
        | exact Except.noConfusion heq
        | (simp only [Except.ok.injEq, Prod.mk.injEq] at heq
           obtain ⟨rfl, -⟩ := heq
           rfl)
    | depositBond sender value =>
      left
      simp only [step, depositBond, Except.ok.injEq, Prod.mk.injEq] at heq
      obtain ⟨rfl, -⟩ := heq
      rfl
    | withdrawBond sender amount =>
      left
      simp only [step, withdrawBond] at heq
      repeat' split at heq
      all_goals first
        | exact Except.noConfusion heq
        | (simp only [Except.ok.injEq, Prod.mk.injEq] at heq
           obtain ⟨rfl, -⟩ := heq
           rfl)
    | withdrawBondAll sender =>
      left
      simp only [step, withdrawBondAll] at heq
      repeat' split at heq
      all_goals first
        | exact Except.noConfusion heq
        | (simp only [Except.ok.injEq, Prod.mk.injEq] at heq
           obtain ⟨rfl, -⟩ := heq
           rfl)
    | setSequencer sender newSequencer =>
      left
      simp only [step, setSequencer] at heq
      repeat' split at heq
      all_goals first
        | exact Except.noConfusion heq
        | (simp only [Except.ok.injEq, Prod.mk.injEq] at heq
           obtain ⟨rfl, -⟩ := heq
           rfl)
    | setChallengePeriod sender newPeriod =>
      left
      simp only [step, setChallengePeriod] at heq
      repeat' split at heq
      all_goals first
        | exact Except.noConfusion heq
        | (simp only [Except.ok.injEq, Prod.mk.injEq] at heq
           obtain ⟨rfl, -⟩ := heq
           rfl)

/-- A resolved challenge stays resolved across any single ledger call. -/
theorem resolved_execOp (s : RollupState) (op : LedgerOp) (i : Nat) (p : FraudProof)
    (hp : s.proofs[i]? = some p) (hres : p.resolved = true) :
    ∃ q, (execOp s op).proofs[i]? = some q ∧ q.resolved = true := by
  have hi : i < s.proofs.length := (List.getElem?_eq_some.mp hp).1
  rcases execOp_proofs_shape s op with h | ⟨x, -, h⟩ | ⟨j, pj, hj, h⟩
  · exact ⟨p, h ▸ hp, hres⟩
  · exact ⟨p, by rw [h]; exact (List.getElem?_append_left hi).trans hp, hres⟩
  · by_cases hij : j = i
    · subst hij
      exact ⟨{ pj with resolved := true },
        by rw [h]; exact List.getElem?_set_eq_of_lt _ ((List.getElem?_eq_some.mp hj).1), rfl⟩
    · exact ⟨p, by rw [h]; exact (List.getElem?_set_ne hij).trans hp, hres⟩

/-- Across any single ledger call, the commitment list is unchanged, or a
fresh unfinalised commitment is appended, or one stored commitment is
finalised, or eligible commitments are finalised in bulk. -/
theorem execOp_commitments_shape (s : RollupState) (op : LedgerOp) :
    (execOp s op).commitments = s.commitments ∨
    (∃ x, x.finalized = false ∧ (execOp s op).commitments = s.commitments ++ [x]) ∨
    (∃ j cj, s.commitments[j]? = some cj ∧
      (execOp s op).commitments = s.commitments.set j { cj with finalized := true }) ∨
    (∃ now, (execOp s op).commitments = s.commitments.map (fun c =>
      if !c.finalized && c.timestamp + s.challengePeriod < now then
        { c with finalized := true } else c)) := by
  unfold execOp
  split
  case h_2 => left; rfl
  case h_1 t tr heq =>
    cases op with
    | commitState sender now blockNum root =>
      simp only [step, commitState] at heq
      repeat' split at heq
      all_goals first
        | exact Except.noConfusion heq
        | (simp only [Except.ok.injEq, Prod.mk.injEq] at heq
           obtain ⟨rfl, -⟩ := heq
           right; left; exact ⟨_, rfl, rfl⟩)
    | challengeState sender value now idx pre post prf =>
      left
      simp only [step, challengeState] at heq
      repeat' split at heq
      all_goals first
        | exact Except.noConfusion heq
        | (simp only [Except.ok.injEq, Prod.mk.injEq] at heq
           obtain ⟨rfl, -⟩ := heq
           rfl)
    | resolveChallenge sender idx fraudulent =>
      left
      simp only [step, resolveChallenge] at heq
      repeat' split at heq
      all_goals first
        | exact Except.noConfusion heq
        | (simp only [Except.ok.injEq, Prod.mk.injEq] at heq
           obtain ⟨rfl, -⟩ := heq
           rfl)
    | finalizeStates now =>
      simp only [step, finalizeStates, Except.ok.injEq, Prod.mk.injEq] at heq
      obtain ⟨rfl, -⟩ := heq
      right; right; right
      exact ⟨now, rfl⟩
    | finalizeState now idx =>
      simp only [step, finalizeState] at heq
      repeat' split at heq
      all_goals first
        | exact Except.noConfusion heq
        | (simp only [Except.ok.injEq, Prod.mk.injEq] at heq
           obtain ⟨rfl, -⟩ := heq
           right; right; left
           exact ⟨idx, _, by assumption, rfl⟩)
    | depositBond sender value =>
      left
      simp only [step, depositBond, Except.ok.injEq, Prod.mk.injEq] at heq
      obtain ⟨rfl, -⟩ := heq
      rfl
    | withdrawBond sender amount =>
      left
      simp only [step, withdrawBond] at heq
      repeat' split at heq
      all_goals first
        | exact Except.noConfusion heq
        | (simp only [Except.ok.injEq, Prod.mk.injEq] at heq
           obtain ⟨rfl, -⟩ := heq
           rfl)
    | withdrawBondAll sender =>
      left
      simp only [step, withdrawBondAll] at heq
      repeat' split at heq
      all_goals first
        | exact Except.noConfusion heq
        | (simp only [Except.ok.injEq, Prod.mk.injEq] at heq
           obtain ⟨rfl, -⟩ := heq
           rfl)
    | setSequencer sender newSequencer =>
      left
      simp only [step, setSequencer] at heq
      repeat' split at heq
      all_goals first
        | exact Except.noConfusion heq
        | (simp only [Except.ok.injEq, Prod.mk.injEq] at heq
           obtain ⟨rfl, -⟩ := heq
           rfl)
    | setChallengePeriod sender newPeriod =>
      left
      simp only [step, setChallengePeriod] at heq
      repeat' split at heq
      all_goals first
        | exact Except.noConfusion heq
        | (simp only [Except.ok.injEq, Prod.mk.injEq] at heq
           obtain ⟨rfl, -⟩ := heq
           rfl)

/-- A finalised commitment stays finalised across any single ledger call. -/
theorem finalized_execOp (s : RollupState) (op : LedgerOp) (i : Nat)
    (c : StateCommitment) (hc : s.commitments[i]? = some c)
    (hf : c.finalized = true) :
    ∃ d, (execOp s op).commitments[i]? = some d ∧ d.finalized = true := by
  have hi : i < s.commitments.length := (List.getElem?_eq_some.mp hc).1
  rcases execOp_commitments_shape s op with h | ⟨x, -, h⟩ | ⟨j, cj, hj, h⟩ | ⟨now, h⟩
  · exact ⟨c, h ▸ hc, hf⟩
  · exact ⟨c, by rw [h]; exact (List.getElem?_append_left hi).trans hc, hf⟩
  · by_cases hij : j = i
    · subst hij
      exact ⟨{ cj with finalized := true },
        by rw [h]; exact List.getElem?_set_eq_of_lt _ ((List.getElem?_eq_some.mp hj).1), rfl⟩
    · exact ⟨c, by rw [h]; exact (List.getElem?_set_ne hij).trans hc, hf⟩
  · refine ⟨c, ?_, hf⟩
    rw [h, List.getElem?_map, hc]
    simp [hf]

/-- A finalised commitment stays finalised across any sequence of ledger
calls. -/
theorem finalized_execOps (s : RollupState) (ops : List LedgerOp) (i : Nat)
    (c : StateCommitment) (hc : s.commitments[i]? = some c)
    (hf : c.finalized = true) :
    ∃ d, (execOps s ops).commitments[i]? = some d ∧ d.finalized = true := by
  induction ops generalizing s c with
  | nil => exact ⟨c, hc, hf⟩
  | cons op rest ih =>
    obtain ⟨d, hd, hdf⟩ := finalized_execOp s op i c hc hf
    exact ih (execOp s op) d hd hdf

/-- A resolved challenge stays resolved across any sequence of ledger
calls. -/
theorem resolved_execOps (s : RollupState) (ops : List LedgerOp) (i : Nat)
    (p : FraudProof) (hp : s.proofs[i]? = some p) (hres : p.resolved = true) :
    ∃ q, (execOps s ops).proofs[i]? = some q ∧ q.resolved = true := by
  induction ops generalizing s p with
  | nil => exact ⟨p, hp, hres⟩
  | cons op rest ih =>
    obtain ⟨q, hq, hqres⟩ := resolved_execOp s op i p hp hres
    exact ih (execOp s op) q hq hqres

/-! ## Claim C1 -/

/-- C1 counterexample: resolving a challenge as not fraudulent pays
`bondAmount` out as a direct transfer but does not add `bondAmount` to the
proposer bond-ledger entry: with `bondAmount = 100` and a proposer
bond-ledger balance of 7, the balance after resolution is still 7, not
107. -/
theorem resolveChallengeNotFraudulent_cex :
    (resolveChallenge sampleLedger 9 0 false).toOption.map (fun r => r.1.bonds 2)
      = some 7 ∧
    sampleLedger.bonds 2 = 7 ∧ sampleLedger.bondAmount = 100 ∧
    (resolveChallenge sampleLedger 9 0 false).toOption.map (fun r => r.1.bonds 2)
      ≠ some (sampleLedger.bonds 2 + sampleLedger.bondAmount) := by
  decide

/-- C1 (amended): resolving an unresolved challenge as not fraudulent
performs exactly one direct ETH transfer of `bondAmount` to the referenced
commitment proposer, leaves every bond-ledger balance unchanged (the
challenger bond, held as contract ETH, is forfeited and never credited),
leaves the commitments unchanged, and sets the challenge `resolved` flag
to true permanently (across every subsequent sequence of ledger calls). -/
theorem resolveChallengeNotFraudulent_spec (s : RollupState) (i : Nat)
    (p : FraudProof) (hp : s.proofs[i]? = some p) (hres : p.resolved = false) :
    resolveChallenge s s.owner i false =
      .ok ({ s with proofs := s.proofs.set i { p with resolved := true } },
        [(((s.commitments[p.commitmentIndex]?).getD defaultCommitment).proposer,
          s.bondAmount)]) ∧
    ({ s with proofs := s.proofs.set i { p with resolved := true } } : RollupState).bonds
      = s.bonds ∧
    (s.proofs.set i { p with resolved := true })[i]? = some { p with resolved := true } ∧
    ∀ ops : List LedgerOp, ∃ q,
      (execOps { s with proofs := s.proofs.set i { p with resolved := true } } ops).proofs[i]?
        = some q ∧ q.resolved = true := by
  have hi : i < s.proofs.length := (List.getElem?_eq_some.mp hp).1
  have hget : (s.proofs.set i { p with resolved := true })[i]?
      = some { p with resolved := true } :=
    List.getElem?_set_eq_of_lt _ hi
  refine ⟨?_, rfl, hget, ?_⟩
  · unfold resolveChallenge
    simp [hp, hres]
  · intro ops
    exact resolved_execOps _ ops i _ hget rfl

/-- C1 witness: the amended behaviour evaluated on the sample ledger. -/
theorem resolveChallengeNotFraudulent_spec_witness :
    resolveChallenge sampleLedger sampleLedger.owner 0 false =
      .ok ({ sampleLedger with proofs :=
              [{ commitmentIndex := 0, preStateRoot := 1, postStateRoot := 2,
                 transitionProof := [], challenger := 5, challengeTime := 12,
                 resolved := true }] },
        [(2, 100)]) := by
  have h := (resolveChallengeNotFraudulent_spec sampleLedger 0
    { commitmentIndex := 0, preStateRoot := 1, postStateRoot := 2,
      transitionProof := [], challenger := 5, challengeTime := 12,
      resolved := false } rfl rfl).1
  exact h

/-! ## Claim C2 -/

/-- C2 counterexample: with `bondAmount = 100` and a pre-resolution
proposer bond-ledger balance of 7, a fraudulent resolution transfers a
total of 100 to the challenger, not the entire pre-resolution balance 7. -/
theorem resolveChallengeFraudulent_cex :
    (resolveChallenge sampleLedger 9 0 true).toOption.map
        (fun r => (r.2.map Prod.snd).sum) = some 100 ∧
    sampleLedger.bonds 2 = 7 ∧ sampleLedger.bondAmount = 100 ∧
    (resolveChallenge sampleLedger 9 0 true).toOption.map
        (fun r => (r.2.map Prod.snd).sum) ≠ some (sampleLedger.bonds 2) := by
  decide

/-- C2 (amended): resolving an unresolved challenge as fraudulent zeroes
the proposer bond-ledger balance, leaves every other balance unchanged,
transfers a total of `max(preBalance, bondAmount)` to the challenger —
which equals the entire pre-resolution balance exactly when that balance is
at least `bondAmount` — and sets the challenge `resolved` flag to true
permanently. -/
theorem resolveChallengeFraudulent_spec (s : RollupState) (i : Nat)
    (p : FraudProof) (hp : s.proofs[i]? = some p) (hres : p.resolved = false) :
    ∃ t ts, resolveChallenge s s.owner i true = .ok (t, ts) ∧
    (∀ x ∈ ts, x.1 = p.challenger) ∧
    (ts.map Prod.snd).sum =
      max (s.bonds (((s.commitments[p.commitmentIndex]?).getD defaultCommitment).proposer))
        s.bondAmount ∧
    (s.bondAmount ≤
        s.bonds (((s.commitments[p.commitmentIndex]?).getD defaultCommitment).proposer) →
      (ts.map Prod.snd).sum =
        s.bonds (((s.commitments[p.commitmentIndex]?).getD defaultCommitment).proposer)) ∧
    t.bonds (((s.commitments[p.commitmentIndex]?).getD defaultCommitment).proposer) = 0 ∧
    (∀ a, a ≠ ((s.commitments[p.commitmentIndex]?).getD defaultCommitment).proposer →
      t.bonds a = s.bonds a) ∧
    t.proofs[i]? = some { p with resolved := true } ∧
    ∀ ops : List LedgerOp, ∃ q,
      (execOps t ops).proofs[i]? = some q ∧ q.resolved = true := by
  have hi : i < s.proofs.length := (List.getElem?_eq_some.mp hp).1
  have hget : (s.proofs.set i { p with resolved := true })[i]?
      = some { p with resolved := true } :=
    List.getElem?_set_eq_of_lt _ hi
  set prop := ((s.commitments[p.commitmentIndex]?).getD defaultCommitment).proposer with hprop
  refine ⟨{ s with
            proofs := s.proofs.set i { p with resolved := true },
            bonds := fun a => if a = prop then 0 else s.bonds a },
    (p.challenger, s.bondAmount) ::
      (if s.bondAmount < s.bonds prop then
        [(p.challenger, s.bonds prop - s.bondAmount)] else []),
    ?_, ?_, ?_, ?_, by simp, ?_, hget, ?_⟩
  · unfold resolveChallenge
    simp [hp, hres, hprop]
  · intro x hx
    rcases List.mem_cons.mp hx with h | h
    · rw [h]
    · by_cases hcase : s.bondAmount < s.bonds prop
      · rw [if_pos hcase] at h
        simp only [List.mem_singleton] at h
        rw [h]
      · rw [if_neg hcase] at h
        simp at h
  · by_cases hcase : s.bondAmount < s.bonds prop
    · rw [if_pos hcase]
      simp only [List.map_cons, List.map_cons, List.map_nil, List.sum_cons,
        List.sum_nil]
      omega
    · rw [if_neg hcase]
      simp only [List.map_cons, List.map_nil, List.sum_cons, List.sum_nil]
      omega
  · intro hle
    by_cases hcase : s.bondAmount < s.bonds prop
    · rw [if_pos hcase]
      simp only [List.map_cons, List.map_cons, List.map_nil, List.sum_cons,
        List.sum_nil]
      omega
    · rw [if_neg hcase]
      simp only [List.map_cons, List.map_nil, List.sum_cons, List.sum_nil]
      omega
  · intro a ha
    simp [ha]
  · intro ops
    exact resolved_execOps _ ops i _ hget rfl

/-- C2 witness: the amended behaviour evaluated on the sample ledger, where
the proposer balance 7 is below `bondAmount = 100`, so the challenger
receives a total of 100 and the proposer balance is zeroed. -/
theorem resolveChallengeFraudulent_spec_witness :
    (∃ t ts, resolveChallenge sampleLedger sampleLedger.owner 0 true = .ok (t, ts) ∧
      (∀ x ∈ ts, x.1 = 5) ∧ (ts.map Prod.snd).sum = max 7 100 ∧
      t.bonds 2 = 0) := by
  obtain ⟨t, ts, h1, h2, h3, -, h5, -⟩ := resolveChallengeFraudulent_spec sampleLedger 0
    { commitmentIndex := 0, preStateRoot := 1, postStateRoot := 2,
      transitionProof := [], challenger := 5, challengeTime := 12,
      resolved := false } rfl rfl
  exact ⟨t, ts, h1, h2, h3, h5⟩


/-! ## Claim C3 -/

/-- C3: a challenge against an existing commitment is rejected, leaving the
ledger unchanged, whenever the posted bond is below `bondAmount`, or the
commitment is already finalized, or the current time exceeds
`commitTime + challengePeriod`; otherwise it is accepted and appends
exactly one new unresolved challenge, and acceptance is independent of the
already-recorded challenges: two successive challenges against the same
commitment are both accepted. -/
theorem challengeState_spec (s : RollupState)
    (sender value now idx pre post : Nat) (prf : List Nat)
    (c : StateCommitment) (hc : s.commitments[idx]? = some c) :
    ((value < s.bondAmount ∨ c.finalized = true ∨
        c.timestamp + s.challengePeriod < now) →
      (∃ msg, challengeState s sender value now idx pre post prf = .error msg) ∧
      execOp s (.challengeState sender value now idx pre post prf) = s) ∧
    (s.bondAmount ≤ value → c.finalized = false →
      now ≤ c.timestamp + s.challengePeriod →
      challengeState s sender value now idx pre post prf =
        .ok ({ s with
               proofs := s.proofs ++
                 [{ commitmentIndex := idx, preStateRoot := pre,
                    postStateRoot := post, transitionProof := prf,
                    challenger := sender, challengeTime := now,
                    resolved := false }] }, [])) ∧
    (s.bondAmount ≤ value → c.finalized = false →
      now ≤ c.timestamp + s.challengePeriod →
      ∀ sender2 value2 pre2 post2 : Nat, ∀ prf2 : List Nat,
        s.bondAmount ≤ value2 →
        (execOps s [.challengeState sender value now idx pre post prf,
                    .challengeState sender2 value2 now idx pre2 post2 prf2]).proofs.length
          = s.proofs.length + 2) := by
  have accept : ∀ (u : RollupState) (sd vl p1 p2 : Nat) (pf : List Nat),
      u.commitments = s.commitments → u.bondAmount = s.bondAmount →
      u.challengePeriod = s.challengePeriod →
      s.bondAmount ≤ vl → c.finalized = false →
      now ≤ c.timestamp + s.challengePeriod →
      challengeState u sd vl now idx p1 p2 pf =
        .ok ({ u with
               proofs := u.proofs ++
                 [{ commitmentIndex := idx, preStateRoot := p1,
                    postStateRoot := p2, transitionProof := pf,
                    challenger := sd, challengeTime := now,
                    resolved := false }] }, []) := by
    intro u sd vl p1 p2 pf hu hb hcp hval hfin htime
    unfold challengeState
    rw [hb, hcp]
    rw [if_neg (Nat.not_lt.mpr hval)]
    have hcu : u.commitments[idx]? = some c := by rw [hu, hc]
    simp only [hcu, hfin, Bool.false_eq_true, if_false,
      Nat.not_lt.mpr htime]
  refine ⟨?_, ?_, ?_⟩
  · intro h
    have herr : ∃ msg,
        challengeState s sender value now idx pre post prf = .error msg := by
      unfold challengeState
      by_cases h1 : value < s.bondAmount
      · exact ⟨_, if_pos h1⟩
      · rcases h with h | h | h
        · exact absurd h h1
        · refine ⟨"State already finalized", ?_⟩
          rw [if_neg h1]
          simp only [hc, h, if_true]
        · by_cases h2 : c.finalized = true
          · refine ⟨"State already finalized", ?_⟩
            rw [if_neg h1]
            simp only [hc, h2, if_true]
          · refine ⟨"Challenge period expired", ?_⟩
            rw [if_neg h1]
            simp only [hc, h2, Bool.false_eq_true, if_false, h, if_true]
    obtain ⟨msg, hmsg⟩ := herr
    exact ⟨⟨msg, hmsg⟩,
      execOp_of_error _ _ msg (by simp only [step]; exact hmsg)⟩
  · intro hval hfin htime
    exact accept s sender value pre post prf rfl rfl rfl hval hfin htime
  · intro hval hfin htime sender2 value2 pre2 post2 prf2 hval2
    have h1 := accept s sender value pre post prf rfl rfl rfl hval hfin htime
    have e1 : execOp s (.challengeState sender value now idx pre post prf) =
        { s with
          proofs := s.proofs ++
            [{ commitmentIndex := idx, preStateRoot := pre,
               postStateRoot := post, transitionProof := prf,
               challenger := sender, challengeTime := now,
               resolved := false }] } := by
      unfold execOp
      simp only [step]
      rw [h1]
    have h2 := accept
      { s with
        proofs := s.proofs ++
          [{ commitmentIndex := idx, preStateRoot := pre,
             postStateRoot := post, transitionProof := prf,
             challenger := sender, challengeTime := now,
             resolved := false }] }
      sender2 value2 pre2 post2 prf2 rfl rfl rfl hval2 hfin htime
    have e2 : execOp
        { s with
          proofs := s.proofs ++
            [{ commitmentIndex := idx, preStateRoot := pre,
               postStateRoot := post, transitionProof := prf,
               challenger := sender, challengeTime := now,
               resolved := false }] }
        (.challengeState sender2 value2 now idx pre2 post2 prf2) =
        { s with
          proofs := (s.proofs ++
            [{ commitmentIndex := idx, preStateRoot := pre,
               postStateRoot := post, transitionProof := prf,
               challenger := sender, challengeTime := now,
               resolved := false }]) ++
            [{ commitmentIndex := idx, preStateRoot := pre2,
               postStateRoot := post2, transitionProof := prf2,
               challenger := sender2, challengeTime := now,
               resolved := false }] } := by
      unfold execOp
      simp only [step]
      rw [h2]
    show (execOp (execOp s _) _).proofs.length = s.proofs.length + 2
    rw [e1, e2]
    simp [List.length_append]

/-- C3 witness: on the sample ledger (commit time 10, period 100, bond
amount 100) a challenge with bond 99 at time 50 is rejected with no state
change, and two successive challenges with sufficient bonds are both
accepted. -/
theorem challengeState_spec_witness :
    ((∃ msg, challengeState sampleLedger 5 99 50 0 1 2 [] = .error msg) ∧
      execOp sampleLedger (.challengeState 5 99 50 0 1 2 []) = sampleLedger) ∧
    (execOps sampleLedger [.challengeState 5 100 50 0 1 2 [],
        .challengeState 6 150 50 0 3 4 []]).proofs.length = 3 := by
  have t1 := challengeState_spec sampleLedger 5 99 50 0 1 2 []
    { stateRoot := 11, blockNumber := 1, timestamp := 10, proposer := 2,
      finalized := false } rfl
  have t2 := challengeState_spec sampleLedger 5 100 50 0 1 2 []
    { stateRoot := 11, blockNumber := 1, timestamp := 10, proposer := 2,
      finalized := false } rfl
  refine ⟨t1.1 (Or.inl (by decide)), ?_⟩
  have h := t2.2.2 (by decide) rfl (by decide) 6 150 3 4 [] (by decide)
  simpa [sampleLedger] using h

/-! ## Claim C4 -/

/-- C4: finalizing an existing commitment is rejected with no state change
while the current time is at most `commitTime + challengePeriod`; once the
period has elapsed it succeeds, setting `finalized := true`, after which
any repeat call is rejected; an already-finalized commitment is always
rejected, and `finalized` stays true across every sequence of ledger calls
(none of which inspects the pending challenges). -/
theorem finalizeState_spec (s : RollupState) (now idx : Nat)
    (c : StateCommitment) (hc : s.commitments[idx]? = some c) :
    (now ≤ c.timestamp + s.challengePeriod →
      (∃ msg, finalizeState s now idx = .error msg) ∧
      execOp s (.finalizeState now idx) = s) ∧
    (c.finalized = false → c.timestamp + s.challengePeriod < now →
      finalizeState s now idx =
        .ok ({ s with
               commitments := s.commitments.set idx { c with finalized := true } },
          []) ∧
      ∀ now2, ∃ msg, finalizeState
          { s with
            commitments := s.commitments.set idx { c with finalized := true } }
          now2 idx = .error msg) ∧
    (c.finalized = true →
      (∃ msg, finalizeState s now idx = .error msg) ∧
      execOp s (.finalizeState now idx) = s) ∧
    (c.finalized = true → ∀ ops : List LedgerOp,
      ∃ d, (execOps s ops).commitments[idx]? = some d ∧ d.finalized = true) := by
  have hi : idx < s.commitments.length := (List.getElem?_eq_some.mp hc).1
  have already : ∀ (u : RollupState) (n : Nat) (d : StateCommitment),
      u.commitments[idx]? = some d → d.finalized = true →
      ∃ msg, finalizeState u n idx = .error msg := by
    intro u n d hd hdf
    refine ⟨"State already finalized", ?_⟩
    unfold finalizeState
    simp only [hd, hdf, if_true]
  refine ⟨?_, ?_, ?_, ?_⟩
  · intro htime
    have herr : ∃ msg, finalizeState s now idx = .error msg := by
      by_cases hf : c.finalized = true
      · exact already s now c hc hf
      · refine ⟨"Challenge period not expired", ?_⟩
        unfold finalizeState
        simp only [hc, hf, Bool.false_eq_true, if_false]
        rw [if_pos (Nat.not_lt.mpr htime)]
    obtain ⟨msg, hmsg⟩ := herr
    exact ⟨⟨msg, hmsg⟩,
      execOp_of_error _ _ msg (by simp only [step]; exact hmsg)⟩
  · intro hfin htime
    constructor
    · unfold finalizeState
      simp only [hc, hfin, Bool.false_eq_true, if_false]
      rw [if_neg (by simp [htime])]
    · intro now2
      exact already _ now2 { c with finalized := true }
        (List.getElem?_set_eq_of_lt _ hi) rfl
  · intro hf
    obtain ⟨msg, hmsg⟩ := already s now c hc hf
    exact ⟨⟨msg, hmsg⟩,
      execOp_of_error _ _ msg (by simp only [step]; exact hmsg)⟩
  · intro hf ops
    exact finalized_execOps s ops idx c hc hf

/-- C4 witness: on the sample ledger (commit time 10, period 100) a
finalization at time 110 is rejected with no state change, while at time
111 it succeeds and an immediate repeat call is rejected. -/
theorem finalizeState_spec_witness :
    ((∃ msg, finalizeState sampleLedger 110 0 = .error msg) ∧
      execOp sampleLedger (.finalizeState 110 0) = sampleLedger) ∧
    (finalizeState sampleLedger 111 0 =
      .ok ({ sampleLedger with
             commitments := [{ stateRoot := 11, blockNumber := 1, timestamp := 10,
                               proposer := 2, finalized := true }] }, []) ∧
     ∀ now2, ∃ msg, finalizeState
        { sampleLedger with
          commitments := [{ stateRoot := 11, blockNumber := 1, timestamp := 10,
                            proposer := 2, finalized := true }] }
        now2 0 = .error msg) := by
  have t1 := finalizeState_spec sampleLedger 110 0
    { stateRoot := 11, blockNumber := 1, timestamp := 10, proposer := 2,
      finalized := false } rfl
  have t2 := finalizeState_spec sampleLedger 111 0
    { stateRoot := 11, blockNumber := 1, timestamp := 10, proposer := 2,
      finalized := false } rfl
  exact ⟨t1.1 (by decide), t2.2.1 rfl (by decide)⟩

/-! ## Claim C5 -/

/-- Across any single ledger call, an address balance either does not
decrease, or the call is a withdrawal by that address, or a fraudulent
resolution slashing that address as the referenced proposer. -/
theorem execOp_bonds_shape (s : RollupState) (op : LedgerOp) (a : Nat) :
    s.bonds a ≤ (execOp s op).bonds a ∨
    (∃ amount, op = .withdrawBond a amount) ∨
    op = .withdrawBondAll a ∨
    (∃ sender idx, op = .resolveChallenge sender idx true ∧
      ∃ p, s.proofs[idx]? = some p ∧
        ((s.commitments[p.commitmentIndex]?).getD defaultCommitment).proposer = a) := by
  unfold execOp
  split
  case h_2 => left; exact le_refl _
  case h_1 t tr heq =>
    cases op with
    | commitState sender now blockNum root =>
      left
      simp only [step, commitState] at heq
      repeat' split at heq
      all_goals first
        | exact Except.noConfusion heq
        | (simp only [Except.ok.injEq, Prod.mk.injEq] at heq
           obtain ⟨rfl, -⟩ := heq
           exact le_refl _)
    | challengeState sender value now idx pre post prf =>
      left
      simp only [step, challengeState] at heq
      repeat' split at heq
      all_goals first
        | exact Except.noConfusion heq
        | (simp only [Except.ok.injEq, Prod.mk.injEq] at heq
           obtain ⟨rfl, -⟩ := heq
           exact le_refl _)
    | resolveChallenge sender idx fraudulent =>
      simp only [step, resolveChallenge] at heq
      split at heq
      · exact Except.noConfusion heq
      · split at heq
        · exact Except.noConfusion heq
        · rename_i p hsome
          split at heq
          · exact Except.noConfusion heq
          · split at heq
            · rename_i hfraud
              simp only [Except.ok.injEq, Prod.mk.injEq] at heq
              obtain ⟨rfl, -⟩ := heq
              by_cases hpa :
                  ((s.commitments[p.commitmentIndex]?).getD defaultCommitment).proposer = a
              · right; right; right
                exact ⟨sender, idx, by rw [hfraud], p, hsome, hpa⟩
              · left
                have hpa2 : ¬ a =
                    ((s.commitments[p.commitmentIndex]?).getD defaultCommitment).proposer :=
                  fun h => hpa h.symm
                simp only [if_neg hpa2, le_refl]
            · simp only [Except.ok.injEq, Prod.mk.injEq] at heq
              obtain ⟨rfl, -⟩ := heq
              left
              exact le_refl _
    | finalizeStates now =>
      left
      simp only [step, finalizeStates, Except.ok.injEq, Prod.mk.injEq] at heq
      obtain ⟨rfl, -⟩ := heq
      exact le_refl _
    | finalizeState now idx =>
      left
      simp only [step, finalizeState] at heq
      repeat' split at heq
      all_goals first
        | exact Except.noConfusion heq
        | (simp only [Except.ok.injEq, Prod.mk.injEq] at heq
           obtain ⟨rfl, -⟩ := heq
           exact le_refl _)
    | depositBond sender value =>
      left
      simp only [step, depositBond, Except.ok.injEq, Prod.mk.injEq] at heq
      obtain ⟨rfl, -⟩ := heq
      by_cases hsa : a = sender
      · simp only [if_pos hsa]; exact Nat.le_add_right _ _
      · simp only [if_neg hsa, le_refl]
    | withdrawBond sender amount =>
      simp only [step, withdrawBond] at heq
      split at heq
      · exact Except.noConfusion heq
      · simp only [Except.ok.injEq, Prod.mk.injEq] at heq
        obtain ⟨rfl, -⟩ := heq
        by_cases hsa : sender = a
        · subst hsa; right; left; exact ⟨amount, rfl⟩
        · left
          have hsa2 : ¬ a = sender := fun h => hsa h.symm
          simp only [if_neg hsa2, le_refl]
    | withdrawBondAll sender =>
      simp only [step, withdrawBondAll] at heq
      split at heq
      · exact Except.noConfusion heq
      · simp only [Except.ok.injEq, Prod.mk.injEq] at heq
        obtain ⟨rfl, -⟩ := heq
        by_cases hsa : sender = a
        · subst hsa; right; right; left; rfl
        · left
          have hsa2 : ¬ a = sender := fun h => hsa h.symm
          simp only [if_neg hsa2, le_refl]
    | setSequencer sender newSequencer =>
      left
      simp only [step, setSequencer] at heq
      repeat' split at heq
      all_goals first
        | exact Except.noConfusion heq
        | (simp only [Except.ok.injEq, Prod.mk.injEq] at heq
           obtain ⟨rfl, -⟩ := heq
           exact le_refl _)
    | setChallengePeriod sender newPeriod =>
      left
      simp only [step, setChallengePeriod] at heq
      repeat' split at heq
      all_goals first
        | exact Except.noConfusion heq
        | (simp only [Except.ok.injEq, Prod.mk.injEq] at heq
           obtain ⟨rfl, -⟩ := heq
           exact le_refl _)

/-- C5: an address balance decreases only through a `withdrawBond` call by
that address (either form) or through slashing of that address as the
referenced proposer in a fraudulent challenge resolution; and a withdrawal
exceeding the balance is rejected with the balance unchanged. -/
theorem bonds_decrease_only_spec (s : RollupState) (op : LedgerOp) (a : Nat) :
    ((execOp s op).bonds a < s.bonds a →
      (∃ amount, op = .withdrawBond a amount) ∨
      op = .withdrawBondAll a ∨
      (∃ sender idx, op = .resolveChallenge sender idx true ∧
        ∃ p, s.proofs[idx]? = some p ∧
          ((s.commitments[p.commitmentIndex]?).getD defaultCommitment).proposer = a)) ∧
    (∀ amount, s.bonds a < amount →
      step s (.withdrawBond a amount) = .error "Insufficient bond balance" ∧
      (execOp s (.withdrawBond a amount)).bonds a = s.bonds a) := by
  constructor
  · intro hlt
    rcases execOp_bonds_shape s op a with h | h | h | h
    · exact absurd hlt (Nat.not_lt.mpr h)
    · exact Or.inl h
    · exact Or.inr (Or.inl h)
    · exact Or.inr (Or.inr h)
  · intro amount hlt
    have herr : step s (.withdrawBond a amount) = .error "Insufficient bond balance" := by
      simp only [step]
      unfold withdrawBond
      rw [if_pos hlt]
    exact ⟨herr, by rw [execOp_of_error _ _ _ herr]⟩

/-- C5 witness: on the sample ledger, a balance decrease caused by a
withdrawal is attributed to a withdrawal or a slash, and a withdrawal of 9
from a balance of 7 is rejected leaving the balance unchanged. -/
theorem bonds_decrease_only_spec_witness :
    ((∃ amount, (LedgerOp.withdrawBond 2 3) = .withdrawBond 2 amount) ∨
      (LedgerOp.withdrawBond 2 3) = .withdrawBondAll 2 ∨
      (∃ sender idx, (LedgerOp.withdrawBond 2 3) = .resolveChallenge sender idx true ∧
        ∃ p, sampleLedger.proofs[idx]? = some p ∧
          ((sampleLedger.commitments[p.commitmentIndex]?).getD
              defaultCommitment).proposer = 2)) ∧
    (step sampleLedger (.withdrawBond 2 9) = .error "Insufficient bond balance" ∧
      (execOp sampleLedger (.withdrawBond 2 9)).bonds 2 = sampleLedger.bonds 2) := by
  refine ⟨(bonds_decrease_only_spec sampleLedger (.withdrawBond 2 3) 2).1 (by decide),
    (bonds_decrease_only_spec sampleLedger (.withdrawBond 2 9) 2).2 9 (by decide)⟩

/-! ## Claim C6 -/

/-- Inserting an element not satisfying `p` does not change the
`p`-filtered sublist. -/
theorem filter_orderedInsert_not (p : SettlementDecisionM → Bool)
    (a : SettlementDecisionM) (l : List SettlementDecisionM) (hpa : p a = false) :
    (l.orderedInsert scoreOrder a).filter p = l.filter p := by
  rw [List.orderedInsert_eq_take_drop, List.filter_append, List.filter_cons,
    hpa]
  simp only [Bool.false_eq_true, if_false]
  rw [← List.filter_append, List.takeWhile_append_dropWhile]

/-- Inserting an element satisfying `p` prepends it to the `p`-filtered
sublist, provided every element it is inserted after fails `p`. -/
theorem filter_orderedInsert_sat (p : SettlementDecisionM → Bool)
    (a : SettlementDecisionM) (l : List SettlementDecisionM) (hpa : p a = true)
    (hskip : ∀ b ∈ l, ¬ scoreOrder a b → p b = false) :
    (l.orderedInsert scoreOrder a).filter p = a :: l.filter p := by
  have h1 : (l.takeWhile fun b => decide ¬ scoreOrder a b).filter p = [] := by
    apply List.filter_eq_nil_iff.mpr
    intro b hb
    have hmem : b ∈ l := (List.takeWhile_sublist _).subset hb
    have hq : ¬ scoreOrder a b := by
      have := List.mem_takeWhile_imp hb
      simpa using this
    simp [hskip b hmem hq]
  have h2 : l.filter p = (l.dropWhile fun b => decide ¬ scoreOrder a b).filter p := by
    conv_lhs => rw [← List.takeWhile_append_dropWhile
      (p := fun b => decide ¬ scoreOrder a b) (l := l)]
    rw [List.filter_append, h1, List.nil_append]
  rw [List.orderedInsert_eq_take_drop, List.filter_append, h1, List.nil_append,
    List.filter_cons, hpa, if_pos rfl, h2]

/-- The stable sort of `analyzeBatch` preserves the relative order of
equal-score decisions. -/
theorem filter_insertionSort_score (q : ℚ) (l : List SettlementDecisionM) :
    (l.insertionSort scoreOrder).filter (fun d => decide (d.score = q)) =
      l.filter (fun d => decide (d.score = q)) := by
  induction l with
  | nil => rfl
  | cons x xs ih =>
    show ((xs.insertionSort scoreOrder).orderedInsert scoreOrder x).filter _ = _
    by_cases hx : x.score = q
    · rw [filter_orderedInsert_sat _ x _ (by simp [hx]) ?_, ih,
        List.filter_cons, if_pos (by simp [hx])]
      intro b hb hnot
      have hgt : x.score < b.score := lt_of_not_le (by simpa [scoreOrder] using hnot)
      have hne : b.score ≠ q := by
        rw [← hx]
        exact ne_of_gt hgt
      simp [hne]
    · rw [filter_orderedInsert_not _ x _ (by simp [hx]), ih, List.filter_cons]
      simp [hx]

/-- The unsorted decision list has one entry per connected adapter with
both queries succeeding. -/
theorem analyzeDecisions_length (adapters : List AdapterM) :
    (analyzeDecisions adapters).length =
      (adapters.filter
        (fun a => a.connected && a.estimateQ.isSome && a.metricsQ.isSome)).length := by
  induction adapters with
  | nil => rfl
  | cons a as ih =>
    cases hc : a.connected <;> cases he : a.estimateQ <;> cases hm : a.metricsQ <;>
      simp [analyzeDecisions, List.filterMap_cons, List.filter_cons, hc, he, hm,
        ← ih, analyzeDecisions]

/-- C6 counterexample: a connected adapter whose metrics query throws is
omitted from the `analyzeBatch` result, so the result does not have one
decision per connected adapter. -/
theorem analyzeBatch_cex :
    (analyzeBatch [adapterMetricsDown]).length = 0 ∧
    ([adapterMetricsDown].filter (fun a => a.connected)).length = 1 := by
  constructor <;> rfl

/-- C6 (amended): `analyzeBatch` returns exactly one decision per connected
adapter both of whose queries succeed (a connected adapter whose cost or
metrics fetch throws is silently omitted), sorted non-increasingly by
score, and decisions with equal scores keep the adapter registration
order (the ECMAScript sort is stable). -/
theorem analyzeBatch_spec (adapters : List AdapterM) :
    (analyzeBatch adapters).length =
      (adapters.filter
        (fun a => a.connected && a.estimateQ.isSome && a.metricsQ.isSome)).length ∧
    (analyzeBatch adapters).Sorted scoreOrder ∧
    ∀ q : ℚ, (analyzeBatch adapters).filter (fun d => decide (d.score = q)) =
      (analyzeDecisions adapters).filter (fun d => decide (d.score = q)) := by
  refine ⟨?_, ?_, ?_⟩
  · rw [analyzeBatch, List.length_insertionSort, analyzeDecisions_length]
  · exact List.sorted_insertionSort scoreOrder (analyzeDecisions adapters)
  · intro q
    exact filter_insertionSort_score q (analyzeDecisions adapters)

/-! ## Claim C7 -/

/-- The running `lowestCost` stays above `m` while every connected,
successfully estimated cost seen is above `m`. -/
theorem costOpt_foldl_gt (m : Nat) (l : List AdapterM) :
    ∀ acc : Option Nat × Nat, m < acc.2 →
    (∀ b ∈ l, b.connected = true → ∀ cb, b.estimateQ = some cb → m < cb) →
    m < (l.foldl costOptStep acc).2 := by
  induction l with
  | nil =>
    intro acc hacc _
    exact hacc
  | cons b bs ih =>
    intro acc hacc hl
    rw [List.foldl_cons]
    refine ih (costOptStep acc b) ?_
      (fun x hx => hl x (List.mem_cons_of_mem _ hx))
    unfold costOptStep
    by_cases hb : b.connected = true
    · rw [if_pos hb]
      cases he : b.estimateQ with
      | none => exact hacc
      | some cb =>
        dsimp only
        by_cases hlt : cb < acc.2
        · rw [if_pos hlt]
          exact hl b (List.mem_cons_self b bs) hb cb he
        · rw [if_neg hlt]
          exact hacc
    · rw [if_neg hb]
      exact hacc

/-- Once the accumulator holds a cost that is a lower bound of every
remaining connected, successfully estimated cost, the fold keeps it. -/
theorem costOpt_foldl_keep (o : Option Nat) (m : Nat) (l : List AdapterM)
    (hl : ∀ b ∈ l, b.connected = true → ∀ cb, b.estimateQ = some cb → m ≤ cb) :
    l.foldl costOptStep (o, m) = (o, m) := by
  induction l with
  | nil => rfl
  | cons b bs ih =>
    rw [List.foldl_cons]
    have hstep : costOptStep (o, m) b = (o, m) := by
      unfold costOptStep
      by_cases hb : b.connected = true
      · rw [if_pos hb]
        cases he : b.estimateQ with
        | none => rfl
        | some cb =>
          dsimp only
          rw [if_neg (Nat.not_lt.mpr (hl b (List.mem_cons_self b bs) hb cb he))]
      · rw [if_neg hb]
    rw [hstep]
    exact ih (fun x hx => hl x (List.mem_cons_of_mem _ hx))

/-- C7 counterexample: one connected adapter whose (successful) cost
estimate equals `Number.MAX_SAFE_INTEGER` wei is never selected — the
strategy raises "No available chains" even though the connected-adapter set
is non-empty and no query failed. -/
theorem costOptimizedSelect_cex :
    costOptimizedSelect [adapterAtSentinel] = .error "No available chains for settlement" ∧
    adapterAtSentinel.connected = true ∧
    adapterAtSentinel.estimateQ = some maxSafeInteger := by
  refine ⟨rfl, rfl, rfl⟩

/-- C7 (amended): `CostOptimizedStrategy.selectChain` returns the earliest
registered connected chain whose successful cost estimate is strictly
minimal, provided that minimum is below the `Number.MAX_SAFE_INTEGER` wei
sentinel the loop starts from; it raises "No available chains" when the
connected-adapter set is empty, every per-adapter query failed, or every
successful estimate is at least the sentinel. -/
theorem costOptimizedSelect_spec (adapters : List AdapterM) :
    ((∀ b ∈ adapters, b.connected = true → ∀ cb, b.estimateQ = some cb →
        maxSafeInteger ≤ cb) →
      costOptimizedSelect adapters = .error "No available chains for settlement") ∧
    (∀ l1 a l2 m, adapters = l1 ++ a :: l2 → a.connected = true →
      a.estimateQ = some m → m < maxSafeInteger →
      (∀ b ∈ l1, b.connected = true → ∀ cb, b.estimateQ = some cb → m < cb) →
      (∀ b ∈ l2, b.connected = true → ∀ cb, b.estimateQ = some cb → m ≤ cb) →
      costOptimizedSelect adapters = .ok a.chainId) := by
  constructor
  · intro h
    unfold costOptimizedSelect
    rw [costOpt_foldl_keep none maxSafeInteger adapters h]
  · intro l1 a l2 m hsplit ha he hm hl1 hl2
    unfold costOptimizedSelect
    rw [hsplit, List.foldl_append, List.foldl_cons]
    have hgt : m < (l1.foldl costOptStep (none, maxSafeInteger)).2 :=
      costOpt_foldl_gt m l1 (none, maxSafeInteger) hm hl1
    have hstep : ∀ acc : Option Nat × Nat, m < acc.2 →
        costOptStep acc a = (some a.chainId, m) := by
      intro acc hlt
      unfold costOptStep
      rw [if_pos ha, he]
      dsimp only
      rw [if_pos hlt]
    rw [hstep _ hgt, costOpt_foldl_keep (some a.chainId) m l2 hl2]

/-- C7 witness: with costs 100, 5, 2 (all below the sentinel) the strategy
returns the cost-2 chain, and with the single sentinel-cost adapter it
raises "No available chains". -/
theorem costOptimizedSelect_spec_witness :
    costOptimizedSelect [adapterCost100, adapterCost5, adapterCost2] =
      .ok adapterCost2.chainId ∧
    costOptimizedSelect [adapterAtSentinel] =
      .error "No available chains for settlement" := by
  constructor
  · exact (costOptimizedSelect_spec [adapterCost100, adapterCost5, adapterCost2]).2
      [adapterCost100, adapterCost5] adapterCost2 [] 2 rfl rfl rfl (by decide)
      (by decide) (by decide)
  · exact (costOptimizedSelect_spec [adapterAtSentinel]).1 (by decide)

/-! ## Claim C8 -/

/-- A connected, fully queried adapter whose balanced score beats the
accumulator replaces it. -/
theorem balancedStep_update (acc : Option Nat × ℚ) (a : AdapterM) (cost : Nat)
    (mm : ChainMetricsM) (ha : a.connected = true) (he : a.estimateQ = some cost)
    (hm : a.metricsQ = some mm) (hlt : acc.2 < balancedScore cost mm) :
    balancedStep acc a = (some a.chainId, balancedScore cost mm) := by
  unfold balancedStep
  rw [if_pos ha, he, hm]
  dsimp only
  rw [if_pos hlt]

/-- A connected, fully queried adapter whose balanced score does not beat
the accumulator leaves it unchanged. -/
theorem balancedStep_keep (acc : Option Nat × ℚ) (a : AdapterM) (cost : Nat)
    (mm : ChainMetricsM) (ha : a.connected = true) (he : a.estimateQ = some cost)
    (hm : a.metricsQ = some mm) (hge : ¬ acc.2 < balancedScore cost mm) :
    balancedStep acc a = acc := by
  unfold balancedStep
  rw [if_pos ha, he, hm]
  dsimp only
  rw [if_neg hge]

/-- Every clamped sub-score is non-negative, and the balanced score of a
chain with load at most 100 is above the initial `bestScore` of -1. -/
theorem balancedScore_gt_init (cost : Nat) (mm : ChainMetricsM)
    (hload : mm.chainLoad ≤ 100) : (-1 : ℚ) < balancedScore cost mm := by
  have h1 : (0 : ℚ) ≤ normalizeCostScore cost := le_max_left _ _
  have h2 : (0 : ℚ) ≤ normalizeTimeScore mm.finalizationTime := le_max_left _ _
  have h3 : (0 : ℚ) ≤ 100 - mm.chainLoad := by linarith
  have m1 := mul_nonneg h1 (by norm_num : (0 : ℚ) ≤ 2 / 5)
  have m2 := mul_nonneg h2 (by norm_num : (0 : ℚ) ≤ 2 / 5)
  have m3 := mul_nonneg h3 (by norm_num : (0 : ℚ) ≤ 1 / 5)
  unfold balancedScore
  linarith

/-- C8 counterexample: the cost normaliser truncates (`Number(cost * 100n /
maxCost)` is a floor division), so the wei-scale costs 100, 5 and 2 all
receive cost sub-score exactly 100 — unlike the spec formula with real
division — hence all three chains tie, `BalancedStrategy` selects the
earliest-registered (cost-100) chain, and `analyzeBatch` ranks the cost-2
chain last, not first. -/
theorem scoring_cex :
    normalizeCostScore 5 = 100 ∧
    specCostScore 5 ≠ 100 ∧
    balancedScore 100 sampleMetrics = balancedScore 2 sampleMetrics ∧
    balancedSelect [adapterCost100, adapterCost5, adapterCost2] =
      .ok adapterCost100.chainId ∧
    adapterCost100.chainId ≠ adapterCost2.chainId ∧
    (analyzeBatch [adapterCost100, adapterCost5, adapterCost2]).map
      (fun d => d.chainId) = [1, 2, 3] := by
  have hcs100 : normalizeCostScore 100 = 100 := by
    norm_num [normalizeCostScore, maxCostWei]
  have hcs5 : normalizeCostScore 5 = 100 := by
    norm_num [normalizeCostScore, maxCostWei]
  have hcs2 : normalizeCostScore 2 = 100 := by
    norm_num [normalizeCostScore, maxCostWei]
  have heq : balancedScore 100 sampleMetrics = balancedScore 2 sampleMetrics := by
    unfold balancedScore
    rw [hcs100, hcs2]
  have heq2 : balancedScore 100 sampleMetrics = balancedScore 5 sampleMetrics := by
    unfold balancedScore
    rw [hcs100, hcs5]
  refine ⟨hcs5, ?_, heq, ?_, by decide, ?_⟩
  · norm_num [specCostScore]
  · have hb1 : (-1 : ℚ) < balancedScore 100 sampleMetrics :=
      balancedScore_gt_init 100 sampleMetrics (by norm_num [sampleMetrics])
    simp only [balancedSelect]
    rw [List.foldl_cons,
      balancedStep_update (none, -1) adapterCost100 100 sampleMetrics rfl rfl rfl hb1,
      List.foldl_cons,
      balancedStep_keep _ adapterCost5 5 sampleMetrics rfl rfl rfl
        (by rw [heq2]; exact lt_irrefl _),
      List.foldl_cons,
      balancedStep_keep _ adapterCost2 2 sampleMetrics rfl rfl rfl
        (by rw [heq]; exact lt_irrefl _),
      List.foldl_nil]
  · have hsc : ∀ (a : AdapterM) (c : Nat), (mkDecision a c sampleMetrics).score =
        normalizeCostScore c * (1 / 2) +
          normalizeTimeScore sampleMetrics.finalizationTime * (3 / 10) +
          (100 - sampleMetrics.chainLoad) * (1 / 5) := fun a c => rfl
    have h23 : scoreOrder (mkDecision adapterCost5 5 sampleMetrics)
        (mkDecision adapterCost2 2 sampleMetrics) := by
      show (mkDecision adapterCost2 2 sampleMetrics).score ≤
        (mkDecision adapterCost5 5 sampleMetrics).score
      rw [hsc, hsc, hcs2, hcs5]
    have h12 : scoreOrder (mkDecision adapterCost100 100 sampleMetrics)
        (mkDecision adapterCost5 5 sampleMetrics) := by
      show (mkDecision adapterCost5 5 sampleMetrics).score ≤
        (mkDecision adapterCost100 100 sampleMetrics).score
      rw [hsc, hsc, hcs5, hcs100]
    show ((analyzeDecisions [adapterCost100, adapterCost5, adapterCost2]).insertionSort
        scoreOrder).map (fun d => d.chainId) = [1, 2, 3]
    have hdec : analyzeDecisions [adapterCost100, adapterCost5, adapterCost2] =
        [mkDecision adapterCost100 100 sampleMetrics,
         mkDecision adapterCost5 5 sampleMetrics,
         mkDecision adapterCost2 2 sampleMetrics] := rfl
    rw [hdec]
    simp only [List.insertionSort]
    rw [List.orderedInsert_nil, List.orderedInsert_of_le _ _ h23,
      List.orderedInsert_of_le _ _ h12]
    rfl

/-- C8 (amended): `costScore = clamp(100 - floor(100 * cost / maxCost), 0,
100)` with `maxCost = 10^18` (bigint floor division, not real division) and
`timeScore = clamp(100 - 100 * time / 300, 0, 100)`, combined as
`0.5 * costScore + 0.3 * timeScore + 0.2 * loadScore` in `analyzeBatch`;
cost 0 scores exactly 100 and cost `maxCost` exactly 0; but the wei-scale
costs 100, 5 and 2 all receive cost sub-score exactly 100, so with equal
finalization time and load (load at most 100) the three Balanced scores are
equal and `BalancedStrategy` selects the earliest-registered chain, not the
cost-2 chain. -/
theorem scoring_spec (m : ChainMetricsM) (hload : m.chainLoad ≤ 100) :
    normalizeCostScore 0 = 100 ∧
    normalizeCostScore maxCostWei = 0 ∧
    (∀ cost : Nat, normalizeCostScore cost =
      max 0 (min 100 (100 - ((cost * 100 / maxCostWei : Nat) : ℚ)))) ∧
    (∀ time : ℚ, normalizeTimeScore time =
      max 0 (min 100 (100 - time / 300 * 100))) ∧
    (∀ (a : AdapterM) (cost : Nat) (mm : ChainMetricsM),
      (mkDecision a cost mm).score =
        normalizeCostScore cost * (1 / 2) +
          normalizeTimeScore mm.finalizationTime * (3 / 10) +
          (100 - mm.chainLoad) * (1 / 5)) ∧
    normalizeCostScore 100 = 100 ∧ normalizeCostScore 5 = 100 ∧
    normalizeCostScore 2 = 100 ∧
    balancedScore 100 m = balancedScore 5 m ∧
    balancedScore 5 m = balancedScore 2 m ∧
    balancedSelect
      [{ chainId := 1, name := "eth", connected := true, estimateQ := some 100,
         metricsQ := some m, submitQ := none },
       { chainId := 2, name := "bsc", connected := true, estimateQ := some 5,
         metricsQ := some m, submitQ := none },
       { chainId := 3, name := "pol", connected := true, estimateQ := some 2,
         metricsQ := some m, submitQ := none }] = .ok 1 := by
  have hcs100 : normalizeCostScore 100 = 100 := by
    norm_num [normalizeCostScore, maxCostWei]
  have hcs5 : normalizeCostScore 5 = 100 := by
    norm_num [normalizeCostScore, maxCostWei]
  have hcs2 : normalizeCostScore 2 = 100 := by
    norm_num [normalizeCostScore, maxCostWei]
  have heq1 : balancedScore 100 m = balancedScore 5 m := by
    unfold balancedScore
    rw [hcs100, hcs5]
  have heq2 : balancedScore 5 m = balancedScore 2 m := by
    unfold balancedScore
    rw [hcs5, hcs2]
  refine ⟨by norm_num [normalizeCostScore, maxCostWei],
    by norm_num [normalizeCostScore, maxCostWei],
    fun cost => rfl, fun time => rfl, fun a cost mm => rfl,
    hcs100, hcs5, hcs2, heq1, heq2, ?_⟩
  have hb1 : (-1 : ℚ) < balancedScore 100 m := balancedScore_gt_init 100 m hload
  simp only [balancedSelect]
  rw [List.foldl_cons,
    balancedStep_update (none, -1) _ 100 m rfl rfl rfl hb1,
    List.foldl_cons,
    balancedStep_keep _ _ 5 m rfl rfl rfl (by rw [heq1]; exact lt_irrefl _),
    List.foldl_cons,
    balancedStep_keep _ _ 2 m rfl rfl rfl
      (by rw [heq1, heq2]; exact lt_irrefl _),
    List.foldl_nil]

/-- C8 witness: the amended scoring facts instantiated at the baseline
metrics (load 50). -/
theorem scoring_spec_witness :
    normalizeCostScore 0 = 100 ∧
    normalizeCostScore maxCostWei = 0 ∧
    balancedScore 100 sampleMetrics = balancedScore 5 sampleMetrics ∧
    balancedSelect
      [{ chainId := 1, name := "eth", connected := true, estimateQ := some 100,
         metricsQ := some sampleMetrics, submitQ := none },
       { chainId := 2, name := "bsc", connected := true, estimateQ := some 5,
         metricsQ := some sampleMetrics, submitQ := none },
       { chainId := 3, name := "pol", connected := true, estimateQ := some 2,
         metricsQ := some sampleMetrics, submitQ := none }] = .ok 1 := by
  obtain ⟨h1, h2, -, -, -, -, -, -, h9, -, h11⟩ :=
    scoring_spec sampleMetrics (by norm_num [sampleMetrics])
  exact ⟨h1, h2, h9, h11⟩

/-! ## Claim C9 -/

/-- If every ranked chain's single attempt fails, the failover loop raises
the all-chains-failed error. -/
theorem failoverLoop_all_fail (adapters : List AdapterM)
    (ds : List SettlementDecisionM)
    (h : ∀ d ∈ ds, (submitToChain adapters d.chainId 0).isOk = false) :
    failoverLoop adapters ds = .error "All chains failed to settle batch" := by
  induction ds with
  | nil => rfl
  | cons d rest ih =>
    have hd := h d (List.mem_cons_self d rest)
    unfold failoverLoop
    cases hsub : submitToChain adapters d.chainId 0 with
    | ok r =>
      rw [hsub] at hd
      simp [Except.isOk, Except.toBool] at hd
    | error e =>
      exact ih (fun x hx => h x (List.mem_cons_of_mem _ hx))

/-- The failover loop returns the result of the first ranked chain whose
single attempt succeeds. -/
theorem failoverLoop_first_ok (adapters : List AdapterM) :
    ∀ (l1 : List SettlementDecisionM) (d : SettlementDecisionM)
      (l2 : List SettlementDecisionM) (r : SettlementResultM),
    (∀ e ∈ l1, (submitToChain adapters e.chainId 0).isOk = false) →
    submitToChain adapters d.chainId 0 = .ok r →
    failoverLoop adapters (l1 ++ d :: l2) = .ok r := by
  intro l1
  induction l1 with
  | nil =>
    intro d l2 r _ hd
    simp only [List.nil_append]
    unfold failoverLoop
    rw [hd]
  | cons e es ih =>
    intro d l2 r h1 hd
    have he := h1 e (List.mem_cons_self e es)
    simp only [List.cons_append]
    unfold failoverLoop
    cases hsub : submitToChain adapters e.chainId 0 with
    | ok r2 =>
      rw [hsub] at he
      simp [Except.isOk, Except.toBool] at he
    | error msg =>
      exact ih d l2 r (fun x hx => h1 x (List.mem_cons_of_mem _ hx)) hd

/-- The `analyzeBatch` ranking of the three failover fixture chains:
scores 100, 85, 70 in registration order. -/
theorem analyzeBatch_failover_eval :
    analyzeBatch [failTopAdapter, okSecondAdapter, okThirdAdapter] =
      [mkDecision failTopAdapter 0 fastMetrics,
       mkDecision okSecondAdapter (3 * 10 ^ 17) fastMetrics,
       mkDecision okThirdAdapter (6 * 10 ^ 17) fastMetrics] := by
  have hs1 : (mkDecision failTopAdapter 0 fastMetrics).score = 100 := by
    norm_num [mkDecision, normalizeCostScore, normalizeTimeScore, maxCostWei,
      fastMetrics, min_def, max_def]
  have hs2 : (mkDecision okSecondAdapter (3 * 10 ^ 17) fastMetrics).score = 85 := by
    norm_num [mkDecision, normalizeCostScore, normalizeTimeScore, maxCostWei,
      fastMetrics, min_def, max_def]
  have hs3 : (mkDecision okThirdAdapter (6 * 10 ^ 17) fastMetrics).score = 70 := by
    norm_num [mkDecision, normalizeCostScore, normalizeTimeScore, maxCostWei,
      fastMetrics, min_def, max_def]
  have h23 : scoreOrder (mkDecision okSecondAdapter (3 * 10 ^ 17) fastMetrics)
      (mkDecision okThirdAdapter (6 * 10 ^ 17) fastMetrics) := by
    show (mkDecision okThirdAdapter (6 * 10 ^ 17) fastMetrics).score ≤
      (mkDecision okSecondAdapter (3 * 10 ^ 17) fastMetrics).score
    rw [hs3, hs2]
    norm_num
  have h12 : scoreOrder (mkDecision failTopAdapter 0 fastMetrics)
      (mkDecision okSecondAdapter (3 * 10 ^ 17) fastMetrics) := by
    show (mkDecision okSecondAdapter (3 * 10 ^ 17) fastMetrics).score ≤
      (mkDecision failTopAdapter 0 fastMetrics).score
    rw [hs2, hs1]
    norm_num
  show (analyzeDecisions [failTopAdapter, okSecondAdapter, okThirdAdapter]).insertionSort
      scoreOrder = _
  have hdec : analyzeDecisions [failTopAdapter, okSecondAdapter, okThirdAdapter] =
      [mkDecision failTopAdapter 0 fastMetrics,
       mkDecision okSecondAdapter (3 * 10 ^ 17) fastMetrics,
       mkDecision okThirdAdapter (6 * 10 ^ 17) fastMetrics] := rfl
  rw [hdec]
  simp only [List.insertionSort]
  rw [List.orderedInsert_nil, List.orderedInsert_of_le _ _ h23,
    List.orderedInsert_of_le _ _ h12]

/-- C9: `submitBatchWithFailover` walks the `analyzeBatch` ranking in
descending-score order with zero retries per chain, returns the result of
the first chain whose submission succeeds, and raises the all-chains-failed
error when every ranked chain's attempt throws. -/
theorem submitBatchWithFailover_spec (adapters : List AdapterM) :
    (analyzeBatch adapters ≠ [] →
      (∀ d ∈ analyzeBatch adapters,
        (submitToChain adapters d.chainId 0).isOk = false) →
      submitBatchWithFailover adapters = .error "All chains failed to settle batch") ∧
    (∀ (l1 : List SettlementDecisionM) (d : SettlementDecisionM)
       (l2 : List SettlementDecisionM) (r : SettlementResultM),
      analyzeBatch adapters = l1 ++ d :: l2 →
      (∀ e ∈ l1, (submitToChain adapters e.chainId 0).isOk = false) →
      submitToChain adapters d.chainId 0 = .ok r →
      submitBatchWithFailover adapters = .ok r) := by
  constructor
  · intro hne hall
    simp only [submitBatchWithFailover]
    rw [if_neg (by simpa using hne)]
    exact failoverLoop_all_fail adapters _ hall
  · intro l1 d l2 r hsplit h1 hd
    simp only [submitBatchWithFailover]
    rw [hsplit]
    rw [if_neg (by simp)]
    exact failoverLoop_first_ok adapters l1 d l2 r h1 hd

/-- C9 witness: with three ranked fixture chains where the top-ranked
submission always throws and the second succeeds, the failover returns the
second chain's result. -/
theorem submitBatchWithFailover_spec_witness :
    submitBatchWithFailover [failTopAdapter, okSecondAdapter, okThirdAdapter] =
      .ok secondResult := by
  refine (submitBatchWithFailover_spec
      [failTopAdapter, okSecondAdapter, okThirdAdapter]).2
    [mkDecision failTopAdapter 0 fastMetrics]
    (mkDecision okSecondAdapter (3 * 10 ^ 17) fastMetrics)
    [mkDecision okThirdAdapter (6 * 10 ^ 17) fastMetrics]
    secondResult analyzeBatch_failover_eval ?_ rfl
  intro e he
  simp only [List.mem_singleton] at he
  subst he
  rfl

/-! ## Claim C10 -/

/-- C10: on a connected adapter (settlement contract set), a failing gas
estimation never propagates: the call still resolves, and when the inner
estimation rejects it resolves to the fixed pessimistic constant of 1 ETH
(10^18 wei) — exactly the normaliser maximum cost, so the chain is scored
worst (cost sub-score 0) rather than excluded. -/
theorem estimateGasCost_spec :
    (∀ query : Option (Nat × Nat), (ethEstimateGasCost true query).isOk = true) ∧
    ethEstimateGasCost true none = .ok (10 ^ 18) ∧
    normalizeCostScore (10 ^ 18) = 0 := by
  refine ⟨?_, rfl, ?_⟩
  · intro query
    cases query <;> rfl
  · norm_num [normalizeCostScore, maxCostWei]
